import Mathlib

/-!
Verification of the casino-chips optimization notebooks.

The repository consists of two teaching notebooks that build integer and
binary linear-programming models for a chip-manufacturing problem through
the gurobipy API. This file shallowly embeds the data tables, the linear
expressions and the constraint families those notebooks construct, and
proves the stated properties about them. Variable assignments are modelled
as functions from the chip type to the rationals; linear expressions are
modelled both as evaluation functions and as formal term lists where a
claim speaks about coefficients.
-/

namespace CasinoChips

/-- The seven chip denominations, in the order of the `chips` list of the
first notebook. -/
inductive Chip where
  | one
  | five
  | ten
  | twentyFive
  | oneHundred
  | fiveHundred
  | thousand
deriving DecidableEq, Fintype, Repr

/-- The four raw materials, in the order of the `ingredients` multidict. -/
inductive Ingredient where
  | clay
  | lead
  | silver
  | gold
deriving DecidableEq, Fintype, Repr

open Chip Ingredient

/-- The `chips` index list, in insertion order of the multidict. -/
def chips : List Chip :=
  [one, five, ten, twentyFive, oneHundred, fiveHundred, thousand]

/-- The `ingredients` index list, in insertion order of the multidict. -/
def ingredients : List Ingredient :=
  [clay, lead, silver, gold]

/-- Dollar value of each chip, from the `value` multidict of the first
notebook. -/
def value : Chip → ℚ
  | one => 1
  | five => 5
  | ten => 10
  | twentyFive => 25
  | oneHundred => 100
  | fiveHundred => 500
  | thousand => 1000

/-- Units of each raw material on hand, from the `on_hand` multidict. -/
def on_hand : Ingredient → ℚ
  | clay => 5000
  | lead => 1800
  | silver => 100
  | gold => 20

/-- Units of ingredient `i` needed per chip of type `c`, from the `recipes`
dictionary of the first notebook (keyed by chip and ingredient pairs). -/
def recipes : Chip → Ingredient → ℚ
  | one, clay => 18
  | one, lead => 0
  | one, silver => 0
  | one, gold => 0
  | five, clay => 17
  | five, lead => 2
  | five, silver => 0
  | five, gold => 0
  | ten, clay => 16
  | ten, lead => 3
  | ten, silver => 0
  | ten, gold => 0
  | twentyFive, clay => 13
  | twentyFive, lead => 4.5
  | twentyFive, silver => 0
  | twentyFive, gold => 0
  | oneHundred, clay => 10
  | oneHundred, lead => 6
  | oneHundred, silver => 1
  | oneHundred, gold => 0
  | fiveHundred, clay => 10
  | fiveHundred, lead => 8.5
  | fiveHundred, silver => 2
  | fiveHundred, gold => 0
  | thousand, clay => 10
  | thousand, lead => 9.5
  | thousand, silver => 0
  | thousand, gold => 2

/-- A formal linear combination of the chip variables: a list of
coefficient-variable terms, mirroring how a gurobipy `LinExpr` is built
term by term. -/
abbrev LinComb := List (ℚ × Chip)

/-- Value of a formal linear combination at an assignment of the chip
variables. -/
def LinComb.eval (e : LinComb) (x : Chip → ℚ) : ℚ :=
  (e.map (fun t => t.1 * x t.2)).sum

/-- Total coefficient that a formal linear combination places on one chip
variable. -/
def LinComb.coeff (e : LinComb) (c : Chip) : ℚ :=
  ((e.filter (fun t => t.2 = c)).map (fun t => t.1)).sum

/-- The objective written term by term, as in the first `setObjective`
call of the first notebook: each summand is the chip variable times the
value of that chip. -/
def obj_term_by_term : LinComb :=
  [(value one, one), (value five, five), (value ten, ten),
   (value twentyFive, twentyFive), (value oneHundred, oneHundred),
   (value fiveHundred, fiveHundred), (value thousand, thousand)]

/-- The objective built with `gp.quicksum(x[i] * value[i] for i in chips)`. -/
def obj_quicksum : LinComb :=
  chips.map (fun i => (value i, i))

/-- The objective built with `x.prod(value)`: the sum of variable times
value over the keys of the variable tupledict, which are the chips in
insertion order. -/
def obj_prod : LinComb :=
  chips.map (fun c => (value c, c))

/-- The high-value chip list of the second notebook. -/
def high_chips : List Chip := [oneHundred, fiveHundred, thousand]

/-- The low-value chip list: every chip of the `chips` list that is not in
`high_chips`, in `chips` order, as built by the list comprehension of the
second notebook. -/
def low_chips : List Chip := chips.filter (fun c => ¬ high_chips.contains c)

/-- Modelled from the spec: the `value` column of `data_files/chips_data.csv`
is read by the second notebook but the CSV file is not among the sources.
The dollar values it holds are the ones of the first notebook and of the
problem statement (1, 5, 10, 25, 100, 500, 1000); the stored solver outputs
of the second notebook (objective 42143 at the printed production plan) are
consistent with exactly these values. -/
def chips_data_value : Chip → ℚ
  | one => 1
  | five => 5
  | ten => 10
  | twentyFive => 25
  | oneHundred => 100
  | fiveHundred => 500
  | thousand => 1000

/-- The `val_total_chips` decision expression:
`gp.quicksum(chips_data.value[c] * x[c] for c in chips)`. -/
def val_total_chips : LinComb := chips.map (fun c => (chips_data_value c, c))

/-- The `val_high_chips` decision expression, summed over `high_chips`. -/
def val_high_chips : LinComb := high_chips.map (fun c => (chips_data_value c, c))

/-- The `val_low_chips` decision expression, summed over `low_chips`. -/
def val_low_chips : LinComb := low_chips.map (fun c => (chips_data_value c, c))

/-- Claim C4: the objective handed to the solver is the single linear
expression with coefficient `value c` on each chip variable, and the three
formulations that set it — the term-by-term sum, the `quicksum` over the
chips, and `x.prod(value)` — denote that same linear expression: they place
the same coefficient on every variable and evaluate identically on every
assignment, agreeing with the closed form of the sum of value times count
over the chips. -/
theorem objective_formulations_agree :
    (∀ c : Chip, obj_term_by_term.coeff c = value c
      ∧ obj_quicksum.coeff c = value c
      ∧ obj_prod.coeff c = value c)
    ∧ (∀ x : Chip → ℚ,
        obj_term_by_term.eval x = (chips.map (fun c => value c * x c)).sum
        ∧ obj_quicksum.eval x = (chips.map (fun c => value c * x c)).sum
        ∧ obj_prod.eval x = (chips.map (fun c => value c * x c)).sum) := by
  constructor
  · intro c
    cases c <;>
      refine ⟨?_, ?_, ?_⟩ <;>
        simp +decide [LinComb.coeff, obj_term_by_term, obj_quicksum, obj_prod,
          chips, value, List.filter]
  · intro x
    refine ⟨?_, ?_, ?_⟩ <;>
      simp [LinComb.eval, obj_term_by_term, obj_quicksum, obj_prod, chips]

/-- Claim C10: `high_chips` and `low_chips` partition the chip list —
`low_chips` consists of exactly the chips not in `high_chips`, the two
lists are disjoint, and together they cover the full `chips` list — and
consequently the decision expressions satisfy
`val_high_chips + val_low_chips = val_total_chips`, both coefficient-wise
and as functions of every assignment. -/
theorem high_low_partition_value_split :
    (∀ c : Chip, c ∈ low_chips ↔ (c ∈ chips ∧ c ∉ high_chips))
    ∧ (∀ c : Chip, ¬ (c ∈ high_chips ∧ c ∈ low_chips))
    ∧ (∀ c : Chip, c ∈ chips ↔ (c ∈ high_chips ∨ c ∈ low_chips))
    ∧ (∀ c : Chip,
        val_high_chips.coeff c + val_low_chips.coeff c = val_total_chips.coeff c)
    ∧ (∀ x : Chip → ℚ,
        val_high_chips.eval x + val_low_chips.eval x = val_total_chips.eval x) := by
  refine ⟨?_, ?_, ?_, ?_, ?_⟩
  · intro c
    cases c <;> simp +decide [low_chips, high_chips, chips]
  · intro c
    cases c <;> simp +decide [low_chips, high_chips, chips]
  · intro c
    cases c <;> simp +decide [low_chips, high_chips, chips]
  · intro c
    cases c <;>
      simp +decide [LinComb.coeff, val_high_chips, val_low_chips, val_total_chips,
        low_chips, high_chips, chips, chips_data_value, List.filter]
  · intro x
    simp [LinComb.eval, val_high_chips, val_low_chips, val_total_chips,
      low_chips, high_chips, chips, chips_data_value]
    ring

/-- Feasibility under the four explicit `addConstr` calls of the first
notebook, in their source order (clay, lead, gold, silver), each left-hand
side written term by term over the seven chips. -/
def feasible_explicit (x : Chip → ℚ) : Prop :=
  (x one * recipes one clay + x five * recipes five clay
      + x ten * recipes ten clay + x twentyFive * recipes twentyFive clay
      + x oneHundred * recipes oneHundred clay
      + x fiveHundred * recipes fiveHundred clay
      + x thousand * recipes thousand clay ≤ on_hand clay)
  ∧ (x one * recipes one lead + x five * recipes five lead
      + x ten * recipes ten lead + x twentyFive * recipes twentyFive lead
      + x oneHundred * recipes oneHundred lead
      + x fiveHundred * recipes fiveHundred lead
      + x thousand * recipes thousand lead ≤ on_hand lead)
  ∧ (x one * recipes one gold + x five * recipes five gold
      + x ten * recipes ten gold + x twentyFive * recipes twentyFive gold
      + x oneHundred * recipes oneHundred gold
      + x fiveHundred * recipes fiveHundred gold
      + x thousand * recipes thousand gold ≤ on_hand gold)
  ∧ (x one * recipes one silver + x five * recipes five silver
      + x ten * recipes ten silver + x twentyFive * recipes twentyFive silver
      + x oneHundred * recipes oneHundred silver
      + x fiveHundred * recipes fiveHundred silver
      + x thousand * recipes thousand silver ≤ on_hand silver)

/-- The left-hand side `gp.quicksum(x[c] * recipes[c, i] for c in chips)`
shared by the loop coding and the `addConstrs` coding. -/
def ingredient_usage_lhs (x : Chip → ℚ) (i : Ingredient) : ℚ :=
  (chips.map (fun c => x c * recipes c i)).sum

/-- Feasibility under the per-ingredient `for` loop of `addConstr` calls
with `quicksum`: one inequality per element of the `ingredients` list. -/
def feasible_loop (x : Chip → ℚ) : Prop :=
  ∀ i ∈ ingredients, ingredient_usage_lhs x i ≤ on_hand i

/-- Feasibility under the single `addConstrs` generator
(`balance_constraints`): one inequality per element of the `ingredients`
list. -/
def feasible_addConstrs (x : Chip → ℚ) : Prop :=
  ∀ i ∈ ingredients, ingredient_usage_lhs x i ≤ on_hand i

/-- The family of linear inequalities the spec describes: for each of the
four ingredients, the recipe-weighted sum of the chip variables is at most
the quantity on hand. -/
def feasible_ingredient_family (x : Chip → ℚ) : Prop :=
  ∀ i : Ingredient, (chips.map (fun c => recipes c i * x c)).sum ≤ on_hand i

/-- Claim C3: the three codings of the ingredient restrictions — the four
explicit `addConstr` calls, the per-ingredient loop with `quicksum`, and
the single `addConstrs` generator — impose exactly the same family of
inequalities over the four ingredients: an assignment of the chip
variables is feasible under one coding iff it is feasible under each of
the others. -/
theorem ingredient_codings_equivalent (x : Chip → ℚ) :
    (feasible_explicit x ↔ feasible_ingredient_family x)
    ∧ (feasible_loop x ↔ feasible_ingredient_family x)
    ∧ (feasible_addConstrs x ↔ feasible_ingredient_family x) := by
  have hloop : feasible_loop x ↔ feasible_ingredient_family x := by
    constructor
    · intro h i
      have := h i (by cases i <;> simp [ingredients])
      simpa [ingredient_usage_lhs, chips, mul_comm] using this
    · intro h i _
      simpa [ingredient_usage_lhs, chips, mul_comm] using h i
  have hexp : feasible_explicit x ↔ feasible_ingredient_family x := by
    constructor
    · intro h i
      obtain ⟨h1, h2, h3, h4⟩ := h
      cases i <;> simp [chips, mul_comm] <;> linarith
    · intro h
      have hc := h clay
      have hl := h lead
      have hg := h gold
      have hs := h silver
      simp [chips, mul_comm] at hc hl hg hs
      exact ⟨by linarith, by linarith, by linarith, by linarith⟩
  exact ⟨hexp, hloop, hloop⟩

/-- The big-M constant `M = 500` of the second notebook. -/
def M : ℚ := 500

/-- The `link_x_y` family of big-M constraints:
`x[c] <= M * y[c]` for every chip `c`. -/
def link_x_y (x y : Chip → ℚ) : Prop :=
  ∀ c ∈ chips, x c ≤ M * y c

/-- Claim C1: the `link_x_y` big-M constraints with `M = 500` link each
chip count to its binary indicator conservatively. For a non-negative
assignment: if the linking constraint holds and `y c = 0` then `x c = 0`;
every chip uses at least 10 units of clay while 5000 units are on hand;
hence the clay on-hand constraint alone forces `x c ≤ 500 = M` for every
chip, so for an assignment feasible under the ingredient limits the
linking constraint with `y c = 1` holds automatically — it excludes no
feasible production level. -/
theorem bigM_link_conservative (x y : Chip → ℚ) (hx : ∀ c, 0 ≤ x c) :
    (∀ c ∈ chips, link_x_y x y → y c = 0 → x c = 0)
    ∧ (∀ c ∈ chips, 10 ≤ recipes c clay)
    ∧ on_hand clay = 5000
    ∧ (ingredient_usage_lhs x clay ≤ on_hand clay → ∀ c ∈ chips, x c ≤ M)
    ∧ (feasible_ingredient_family x → ∀ c ∈ chips, x c ≤ M * 1) := by
  have hclay_bound : ingredient_usage_lhs x clay ≤ on_hand clay →
      ∀ c ∈ chips, x c ≤ M := by
    intro hclay c hc
    have h1 := hx one
    have h5 := hx five
    have h10 := hx ten
    have h25 := hx twentyFive
    have h100 := hx oneHundred
    have h500 := hx fiveHundred
    have h1000 := hx thousand
    simp [ingredient_usage_lhs, chips, recipes, on_hand] at hclay
    cases c <;> simp [M] <;> linarith
  refine ⟨?_, ?_, ?_, hclay_bound, ?_⟩
  · intro c hc hlink hy
    have hle := hlink c hc
    rw [hy, mul_zero] at hle
    exact le_antisymm hle (hx c)
  · intro c hc
    cases c <;> norm_num [recipes]
  · norm_num [on_hand]
  · intro hfam c hc
    have hclay := hfam clay
    rw [mul_one]
    refine hclay_bound ?_ c hc
    simpa [ingredient_usage_lhs, chips, mul_comm] using hclay

/-- Witness for C1: the all-zero assignment is non-negative, and the
conclusion of the big-M theorem holds for it. -/
theorem bigM_link_conservative_witness :
    (∀ c : Chip, 0 ≤ (fun _ : Chip => (0 : ℚ)) c)
    ∧ ((∀ c ∈ chips,
          link_x_y (fun _ => (0 : ℚ)) (fun _ => (0 : ℚ)) →
            (fun _ : Chip => (0 : ℚ)) c = 0 → (fun _ : Chip => (0 : ℚ)) c = 0)
      ∧ (∀ c ∈ chips, 10 ≤ recipes c clay)
      ∧ on_hand clay = 5000
      ∧ (ingredient_usage_lhs (fun _ => (0 : ℚ)) clay ≤ on_hand clay →
          ∀ c ∈ chips, (fun _ : Chip => (0 : ℚ)) c ≤ M)
      ∧ (feasible_ingredient_family (fun _ => (0 : ℚ)) →
          ∀ c ∈ chips, (fun _ : Chip => (0 : ℚ)) c ≤ M * 1)) :=
  ⟨fun _ => le_refl 0,
    bigM_link_conservative (fun _ => (0 : ℚ)) (fun _ => (0 : ℚ)) (fun _ => le_refl 0)⟩

/-- The `total_chips` decision expression `x.sum()`: the sum of the chip
variables over the chips. -/
def total_chips (x : Chip → ℚ) : ℚ := (chips.map x).sum

/-- The `vCost_all_chips` expression: variable production cost of the plan.
The per-chip `cost` column comes from the CSV file and is passed in as a
parameter. -/
def vCost_all_chips (cost : Chip → ℚ) (x : Chip → ℚ) : ℚ :=
  (chips.map (fun c => cost c * x c)).sum

/-- The `fCost_all_chips` expression: fixed setup cost of the plan. The
per-chip `fixed_cost` column comes from the CSV file and is passed in as a
parameter. -/
def fCost_all_chips (fixed_cost : Chip → ℚ) (y : Chip → ℚ) : ℚ :=
  (chips.map (fun c => fixed_cost c * y c)).sum

/-- Feasibility in the first-stage model of the DIY hierarchical
multi-objective cell: integer chip variables with default lower bound 0,
binary indicator variables, the `ingredient_usage` constraints, the
`percent30` constraints, the `link_x_y` constraints and the `t_budget`
constraint with right-hand side 220. -/
def stage1_feasible (cost fixed_cost : Chip → ℚ) (x y : Chip → ℚ) : Prop :=
  (∀ c ∈ chips, (x c).den = 1 ∧ 0 ≤ x c)
  ∧ (∀ c ∈ chips, y c = 0 ∨ y c = 1)
  ∧ (∀ i ∈ ingredients, ingredient_usage_lhs x i ≤ on_hand i)
  ∧ (∀ c ∈ chips, x c ≤ 0.3 * total_chips x)
  ∧ link_x_y x y
  ∧ vCost_all_chips cost x + fCost_all_chips fixed_cost y ≤ 220

/-- Feasibility in the second-stage model: the model state after
`multi_obj = model.addConstr(total_chips >= 0.9*z)`, where `z` is the
objective value the solver reported for the first stage. All first-stage
constraints are still present, followed by the new bound. -/
def stage2_feasible (cost fixed_cost : Chip → ℚ) (z : ℚ) (x y : Chip → ℚ) : Prop :=
  (∀ c ∈ chips, (x c).den = 1 ∧ 0 ≤ x c)
  ∧ (∀ c ∈ chips, y c = 0 ∨ y c = 1)
  ∧ (∀ i ∈ ingredients, ingredient_usage_lhs x i ≤ on_hand i)
  ∧ (∀ c ∈ chips, x c ≤ 0.3 * total_chips x)
  ∧ link_x_y x y
  ∧ vCost_all_chips cost x + fCost_all_chips fixed_cost y ≤ 220
  ∧ 0.9 * z ≤ total_chips x

/-- Claim C2: in the DIY hierarchical procedure, the second-stage model is
the first-stage model plus the single bound `total_chips >= 0.9*z` derived
from the first-stage objective value `z`, its objective is the total chip
value expression, and consequently every assignment feasible in the
second-stage model retains at least 90 percent of the first-stage total
chip count `z`. -/
theorem hierarchical_second_stage_retains (cost fixed_cost : Chip → ℚ)
    (z : ℚ) (x y : Chip → ℚ) (h : stage2_feasible cost fixed_cost z x y) :
    (stage1_feasible cost fixed_cost x y ∧ 0.9 * z ≤ total_chips x)
    ∧ val_total_chips.eval x = (chips.map (fun c => chips_data_value c * x c)).sum := by
  obtain ⟨h1, h2, h3, h4, h5, h6, h7⟩ := h
  refine ⟨⟨⟨h1, h2, h3, h4, h5, h6⟩, h7⟩, ?_⟩
  simp [val_total_chips, LinComb.eval, chips]

/-- Witness for C2: the all-zero data and all-zero assignment are feasible
in the second-stage model with `z = 0`, and the retention bound holds
there. -/
theorem hierarchical_second_stage_retains_witness :
    stage2_feasible (fun _ => 0) (fun _ => 0) 0 (fun _ => 0) (fun _ => 0)
    ∧ ((stage1_feasible (fun _ => 0) (fun _ => 0) (fun _ => 0) (fun _ => 0)
          ∧ 0.9 * 0 ≤ total_chips (fun _ => 0))
        ∧ val_total_chips.eval (fun _ => 0)
            = (chips.map (fun c => chips_data_value c * (fun _ : Chip => (0 : ℚ)) c)).sum) := by
  have h : stage2_feasible (fun _ => 0) (fun _ => 0) 0 (fun _ => 0) (fun _ => 0) := by
    refine ⟨?_, ?_, ?_, ?_, ?_, ?_, ?_⟩ <;>
      simp [chips, ingredients, ingredient_usage_lhs, total_chips, link_x_y,
        vCost_all_chips, fCost_all_chips, on_hand]
  exact ⟨h, hierarchical_second_stage_retains (fun _ => 0) (fun _ => 0) 0
    (fun _ => 0) (fun _ => 0) h⟩

/-- Feasibility in the model state after the logical-constraints cell of
the second notebook runs. The model then holds, in order: the
`ingredient_usage` constraints, the `percent30` constraints, the fresh
`link_x_y` big-M constraints, the inequality `at_most_one_high_value`
(`y[five hundred] + y[thousand] <= 1`), the equality
`exactly_one_high_value` (`y[five hundred] + y[thousand] == 1`), the
`min_low_value_types` and `max_low_value_types` bounds on the low-value
indicator sum, and the range form of the same bounds; the chip variables
are integers with default lower bound 0 and the indicator variables are
binary. -/
def logical_model_feasible (x y : Chip → ℚ) : Prop :=
  (∀ c ∈ chips, (x c).den = 1 ∧ 0 ≤ x c)
  ∧ (∀ c ∈ chips, y c = 0 ∨ y c = 1)
  ∧ (∀ i ∈ ingredients, ingredient_usage_lhs x i ≤ on_hand i)
  ∧ (∀ c ∈ chips, x c ≤ 0.3 * total_chips x)
  ∧ link_x_y x y
  ∧ y fiveHundred + y thousand ≤ 1
  ∧ y fiveHundred + y thousand = 1
  ∧ 2 ≤ (low_chips.map y).sum
  ∧ (low_chips.map y).sum ≤ 3
  ∧ (2 ≤ (low_chips.map y).sum ∧ (low_chips.map y).sum ≤ 3)

/-- Claim C8: after the logical-constraints cell runs the model contains
both `at_most_one_high_value` and `exactly_one_high_value`, so every
feasible assignment makes exactly one of the 500-dollar and 1000-dollar
chip types: either the 500-dollar indicator is 1 and the 1000-dollar
indicator is 0, or the other way around — never both, never neither. -/
theorem exactly_one_high_value_chip (x y : Chip → ℚ)
    (h : logical_model_feasible x y) :
    (y fiveHundred = 1 ∧ y thousand = 0) ∨ (y fiveHundred = 0 ∧ y thousand = 1) := by
  obtain ⟨-, hbin, -, -, -, -, hexact, -⟩ := h
  have h500 := hbin fiveHundred (by simp [chips])
  have h1000 := hbin thousand (by simp [chips])
  rcases h500 with h5 | h5 <;> rcases h1000 with h1 | h1 <;>
    rw [h5, h1] at hexact <;> norm_num at hexact
  · exact Or.inr ⟨h5, h1⟩
  · exact Or.inl ⟨h5, h1⟩

/-- Witness for C8: the all-zero production plan with indicators set for
the one-dollar, five-dollar and five-hundred-dollar chips satisfies every
constraint of the logical-constraints model, and that assignment makes
exactly the 500-dollar chip type among the two high-value ones. -/
theorem exactly_one_high_value_chip_witness :
    logical_model_feasible (fun _ => 0)
      (fun c => match c with | one => 1 | five => 1 | fiveHundred => 1 | _ => 0)
    ∧ (((fun c => match c with | one => 1 | five => 1 | fiveHundred => 1 | _ => (0 : ℚ)) fiveHundred = 1
          ∧ (fun c => match c with | one => 1 | five => 1 | fiveHundred => 1 | _ => (0 : ℚ)) thousand = 0)
        ∨ ((fun c => match c with | one => 1 | five => 1 | fiveHundred => 1 | _ => (0 : ℚ)) fiveHundred = 0
          ∧ (fun c => match c with | one => 1 | five => 1 | fiveHundred => 1 | _ => (0 : ℚ)) thousand = 1)) := by
  have h : logical_model_feasible (fun _ => 0)
      (fun c => match c with | one => 1 | five => 1 | fiveHundred => 1 | _ => 0) := by
    refine ⟨?_, ?_, ?_, ?_, ?_, ?_, ?_, ?_, ?_, ?_, ?_⟩ <;>
      first
        | (intro c hc; cases c <;>
            norm_num [ingredient_usage_lhs, total_chips, chips, on_hand, M])
        | (simp +decide [low_chips, high_chips, chips, link_x_y, M, List.filter] <;>
            norm_num)
  refine ⟨h, exactly_one_high_value_chip (fun _ => 0) _ h⟩

/-- The index string of each chip, as it appears in gurobipy variable and
constraint names. -/
def Chip.label : Chip → String
  | one => "one"
  | five => "five"
  | ten => "ten"
  | twentyFive => "twenty-five"
  | oneHundred => "one hundred"
  | fiveHundred => "five hundred"
  | thousand => "thousand"

/-- The index string of each ingredient. -/
def Ingredient.label : Ingredient → String
  | clay => "clay"
  | lead => "lead"
  | silver => "silver"
  | gold => "gold"

/-- Sense of a linear constraint row. -/
inductive Sense where
  | le
  | ge
  | eq
deriving DecidableEq, Repr

/-- One linear constraint row of a model: its gurobipy name, a coefficient
for each chip variable and each indicator variable, a sense and a
right-hand side. -/
structure Constr where
  name : String
  xCoeff : Chip → ℚ
  yCoeff : Chip → ℚ
  sense : Sense
  rhs : ℚ

/-- A model: the decision-variable names in the order they were added,
and the constraint rows in the order they were added. -/
structure Model where
  varNames : List String
  constrs : List Constr

/-- The variables of the second notebook model at the removal point: the
integer `chips` variables followed by the binary `make` variables. -/
def all_var_names : List String :=
  chips.map (fun c => "chips[" ++ c.label ++ "]")
    ++ chips.map (fun c => "make[" ++ c.label ++ "]")

/-- The `ingredient_usage` constraint rows, one per ingredient. -/
def ingredient_usage_constrs : List Constr :=
  ingredients.map (fun i =>
    { name := "ingredient_usage[" ++ i.label ++ "]"
      xCoeff := fun c => recipes c i
      yCoeff := fun _ => 0
      sense := Sense.le
      rhs := on_hand i })

/-- The `meet_demand` constraint rows `x[c] >= demand[c]`, one per chip.
The `demand` column of the chips CSV is passed in as a parameter. -/
def meet_demand_constrs (demand : Chip → ℚ) : List Constr :=
  chips.map (fun c =>
    { name := "meet_demand[" ++ c.label ++ "]"
      xCoeff := fun d => if d = c then 1 else 0
      yCoeff := fun _ => 0
      sense := Sense.ge
      rhs := demand c })

/-- The `v_budget` constraint row: total variable cost at most 80. -/
def vBudget_constr (cost : Chip → ℚ) : Constr :=
  { name := "v_budget"
    xCoeff := cost
    yCoeff := fun _ => 0
    sense := Sense.le
    rhs := 80 }

/-- The `link_x_y` big-M constraint rows `x[c] - M*y[c] <= 0`, one per
chip. -/
def link_x_y_constrs : List Constr :=
  chips.map (fun c =>
    { name := "link_x_y[" ++ c.label ++ "]"
      xCoeff := fun d => if d = c then 1 else 0
      yCoeff := fun d => if d = c then -M else 0
      sense := Sense.le
      rhs := 0 })

/-- The `t_budget` constraint row: variable plus fixed cost at most 280. -/
def tBudget_constr (cost fixed_cost : Chip → ℚ) : Constr :=
  { name := "t_budget"
    xCoeff := cost
    yCoeff := fixed_cost
    sense := Sense.le
    rhs := 280 }

/-- The model state of the second notebook immediately before
`model.remove(meet_demand)`: both variable blocks and, in insertion order,
the ingredient-usage rows, the demand rows, the variable-cost budget row,
the big-M link rows and the total-cost budget row. -/
def model_before_remove (demand cost fixed_cost : Chip → ℚ) : Model :=
  { varNames := all_var_names
    constrs := ingredient_usage_constrs ++ meet_demand_constrs demand
      ++ [vBudget_constr cost] ++ link_x_y_constrs
      ++ [tBudget_constr cost fixed_cost] }

/-- `model.remove` applied to a group of constraints: every row of the
model whose name belongs to the group is dropped; the variables and all
other rows are untouched. -/
def Model.removeByNames (m : Model) (names : List String) : Model :=
  { m with constrs := m.constrs.filter (fun con => !(names.contains con.name)) }

/-- The names of the seven constraint objects held by the `meet_demand`
tupledict. -/
def meet_demand_names : List String :=
  chips.map (fun c => "meet_demand[" ++ c.label ++ "]")

/-- The model state right after `model.remove(meet_demand)`. -/
def model_after_remove (demand cost fixed_cost : Chip → ℚ) : Model :=
  (model_before_remove demand cost fixed_cost).removeByNames meet_demand_names

/-- Claim C9: `model.remove(meet_demand)` removes exactly the seven
per-chip demand rows and nothing else — afterwards the model consists of
the unchanged variable list and, still in order, the ingredient-usage
rows, the variable-cost budget row, the big-M link rows and the total-cost
budget row; exactly seven rows were dropped. -/
theorem remove_meet_demand_frame (demand cost fixed_cost : Chip → ℚ) :
    model_after_remove demand cost fixed_cost =
      { varNames := all_var_names
        constrs := ingredient_usage_constrs ++ [vBudget_constr cost]
          ++ link_x_y_constrs ++ [tBudget_constr cost fixed_cost] }
    ∧ (model_before_remove demand cost fixed_cost).constrs.length =
        (model_after_remove demand cost fixed_cost).constrs.length + 7 := by
  constructor
  · rfl
  · rfl

/-- A solver decision variable as the reporting code sees it: the
`VarName` attribute and the `X` attribute. `X` is `none` in the state
where no solution value is available (infeasible model, or never solved),
in which case querying it raises a GurobiError. -/
structure Var where
  VarName : String
  X : Option ℚ

/-- Rendering of a solution value: Python prints the float attribute, so
integral values carry a trailing `.0`. -/
def fmtVal (q : ℚ) : String :=
  if q.den = 1 then toString q.num ++ ".0"
  else toString q.num ++ "/" ++ toString q.den

/-- The message of the GurobiError the library raises when the `X`
attribute is queried and no solution value is available. -/
def gurobi_error_msg : String := "Unable to retrieve attribute X"

/-- The solution-reporting loop of the first notebook:
iterate over `model.getVars()` and print one line per variable from
`VarName` and `X`. The cell contains no handler, so the GurobiError
raised by `X` aborts the loop and propagates. -/
def report_loop : List Var → Except String (List String)
  | [] => Except.ok []
  | v :: vs =>
    match v.X with
    | none => Except.error gurobi_error_msg
    | some q =>
      match report_loop vs with
      | Except.error e => Except.error e
      | Except.ok ls => Except.ok ((v.VarName ++ ": " ++ fmtVal q) :: ls)

/-- Claim C5: the reporting cell assumes the optimization completed
successfully and adds no failure handling of its own. When every variable
has a solution value the loop prints the lines; when any variable lacks
one, the external library error is the outcome of the cell — nothing in
the repository catches or recovers from it. -/
theorem report_loop_no_failure_handling (vs : List Var) (val : Var → ℚ) :
    ((∀ v ∈ vs, v.X = some (val v)) →
      report_loop vs
        = Except.ok (vs.map (fun v => v.VarName ++ ": " ++ fmtVal (val v))))
    ∧ ((∃ v ∈ vs, v.X = none) →
      report_loop vs = Except.error gurobi_error_msg) := by
  induction vs with
  | nil =>
    refine ⟨fun _ => rfl, ?_⟩
    rintro ⟨v, hv, -⟩
    exact absurd hv (List.not_mem_nil v)
  | cons v vs ih =>
    constructor
    · intro h
      have hv := h v (List.mem_cons_self v vs)
      have hrest := ih.1 (fun w hw => h w (List.mem_cons_of_mem v hw))
      simp [report_loop, hv, hrest]
    · rintro ⟨w, hw, hwX⟩
      rcases List.mem_cons.mp hw with rfl | hw
      · simp [report_loop, hwX]
      · have hrest := ih.2 ⟨w, hw, hwX⟩
        cases hvX : v.X with
        | none => simp [report_loop, hvX]
        | some q => simp [report_loop, hvX, hrest]

/-- Witness for C5: on a one-variable model with a solution value the
loop prints the line; on the same variable without a solution value the
loop ends in the library error. -/
theorem report_loop_no_failure_handling_witness :
    report_loop [⟨"chips[one]", some 38⟩]
      = Except.ok ["chips[one]" ++ ": " ++ fmtVal 38]
    ∧ report_loop [⟨"chips[one]", none⟩] = Except.error gurobi_error_msg := by
  constructor
  · have h := (report_loop_no_failure_handling [⟨"chips[one]", some 38⟩]
      (fun _ => 38)).1 (by simp)
    simpa using h
  · exact (report_loop_no_failure_handling [⟨"chips[one]", none⟩] (fun _ => 0)).2
      ⟨⟨"chips[one]", none⟩, by simp, rfl⟩

/-- The per-variable printing loop of the reporting helper: one line per
variable holding the name, a colon and the solution value, in order. -/
def print_vars_loop : List (String × ℚ) → List String
  | [] => []
  | v :: vs => (v.1 ++ ": " ++ fmtVal v.2) :: print_vars_loop vs

/-- Modelled from the spec: `solve_and_report.py` is not among the
sources — the second notebook downloads it at run time from the main
branch of this repository on GitHub and imports `solve_and_print_solution`
from it. Per the spec it is the tiny helper that prints solver results,
and the stored cell outputs of the second notebook show its format: a
status line, an objective-value line, then one line per decision variable
in the order the variables were added to the model. -/
def solve_and_print_solution (objVal : ℚ) (vars : List (String × ℚ)) : List String :=
  "Optimal solution found"
    :: ("Objective value: " ++ fmtVal objVal)
    :: print_vars_loop vars

/-- Claim C6: after a solve, the variable-reporting portion of the helper
output is exactly one line per decision variable of the model, each
consisting of the variable name, a colon and its solution value, in the
order the variables were added: the lines after the two status lines are
the image of the variable list under the line format, there are exactly as
many of them as variables, and the line at every position matches the
variable at that position. -/
theorem solve_and_print_one_line_per_variable (objVal : ℚ)
    (vars : List (String × ℚ)) :
    (solve_and_print_solution objVal vars).drop 2
      = vars.map (fun v => v.1 ++ ": " ++ fmtVal v.2)
    ∧ ((solve_and_print_solution objVal vars).drop 2).length = vars.length
    ∧ (∀ n, ((solve_and_print_solution objVal vars).drop 2).get? n
        = (vars.get? n).map (fun v => v.1 ++ ": " ++ fmtVal v.2)) := by
  have hmap : ∀ ws : List (String × ℚ),
      print_vars_loop ws = ws.map (fun v => v.1 ++ ": " ++ fmtVal v.2) := by
    intro ws
    induction ws with
    | nil => rfl
    | cons w ws ih => simp [print_vars_loop, ih]
  refine ⟨?_, ?_, ?_⟩
  · simp [solve_and_print_solution, hmap]
  · simp [solve_and_print_solution, hmap]
  · intro n
    simp [solve_and_print_solution, hmap, List.getElem?_map]

/-- The gurobipy `multidict` applied to a single-value dictionary: it
returns the list of keys in insertion order together with the lookup from
key to value. -/
def multidict {α β : Type} [DecidableEq α] (entries : List (α × β)) :
    List α × (α → Option β) :=
  (entries.map Prod.fst,
   fun a => (entries.find? (fun p => p.1 == a)).map Prod.snd)

/-- The chip-value dictionary handed to `multidict` in the first notebook,
in source order. -/
def chip_value_entries : List (Chip × ℚ) :=
  [(one, 1), (five, 5), (ten, 10), (twentyFive, 25),
   (oneHundred, 100), (fiveHundred, 500), (thousand, 1000)]

/-- Modelled from the spec: `data_files/ing_amounts.csv` is read by the
second notebook but the CSV file is not among the sources. Its rows hold
the on-hand amount per ingredient, matching the `on_hand` multidict of the
first notebook. -/
def ing_amounts_csv : List (Ingredient × ℚ) :=
  [(clay, 5000), (lead, 1800), (silver, 100), (gold, 20)]

/-- Modelled from the spec: the rows of `data_files/chips_data.csv` are
indexed by chip; the value column matches the chip dollar values of the
first notebook. Only the index and the value column are modelled here. -/
def chips_data_csv : List (Chip × ℚ) :=
  chips.map (fun c => (c, chips_data_value c))

/-- Modelled from the spec: the rows of `data_files/recipes.csv` are keyed
by chip and ingredient pairs, holding the recipe amounts of the first
notebook. -/
def recipes_csv : List ((Chip × Ingredient) × ℚ) :=
  chips.flatMap (fun c => ingredients.map (fun i => ((c, i), recipes c i)))

/-- The `ingredients` index list the second notebook derives with
`on_hand.index.to_list`. -/
def ingredients_from_csv : List Ingredient := ing_amounts_csv.map Prod.fst

/-- The `chips` index list the second notebook derives with
`chips_data.index.to_list`. -/
def chips_from_csv : List Chip := chips_data_csv.map Prod.fst

/-- Claim C7: `gp.multidict` on the chip-value mapping returns the list of
the seven chip names in order together with the dictionary assigning each
chip its dollar value, and the second notebook derives its ingredient and
chip index lists from the indices of the CSV tables, with the recipes
table keyed by chip-ingredient pairs that look up to the recipe
amounts. -/
theorem multidict_and_csv_tables :
    (multidict chip_value_entries).1 = chips
    ∧ (∀ c : Chip, (multidict chip_value_entries).2 c = some (value c))
    ∧ ingredients_from_csv = ingredients
    ∧ chips_from_csv = chips
    ∧ recipes_csv.map Prod.fst
        = chips.flatMap (fun c => ingredients.map (fun i => (c, i)))
    ∧ (∀ c i, (recipes_csv.find? (fun p => p.1 == (c, i))).map Prod.snd
        = some (recipes c i)) := by
  refine ⟨rfl, ?_, rfl, rfl, rfl, ?_⟩
  · intro c
    cases c <;> rfl
  · intro c i
    cases c <;> cases i <;> rfl

end CasinoChips
